import Mathlib

/-!
Verification of the voucher-wallet core logic (status derivation, ledger
mutations, list projection, interchange codec) against its specification.

Shallow-embedding conventions, matching the TypeScript source in
src/src/pages/Signup.tsx (the Vouchers page), src/unnamed/part_000 (the
Dashboard page) and src/unnamed/part_001 (the Voucher record type):

* Finite JavaScript numbers are modelled as rationals.  A value that may be a
  non-finite number (the result of a Number(...) conversion that can yield NaN
  or an infinity) is modelled as an Option over the rationals, with none
  standing for the non-finite outcome; the source only ever consumes such
  values through Number.isFinite guards or the toNum coercion, both of which
  are embedded explicitly below.
* Strings are modelled as lists of characters so that trimming, lowercasing
  and substring search can be reasoned about directly.
* A calendar-date string is modelled together with the result of parsing it:
  DateV pairs the raw string with the epoch-millisecond instant that
  new Date(raw) evaluates to (local midnight of the date).  setHours applied
  with arguments 23, 59, 59, 999 then lands on that instant plus 86399999
  milliseconds, which is the endOfDayMs function below.
* Date.now() is threaded through as an explicit integer parameter, so the
  embedded functions are deterministic in (input, now) by construction.
* A store write is modelled by returning the written record; a validation
  failure is modelled by an Except.error carrying the alert text, and issues
  no record, which is how the source guarantees that no write reaches the
  store on validation failure.
-/

abbrev Str := List Char

/-- A finite JavaScript number (some q) or a non-finite Number result (none). -/
abbrev JNum := Option ℚ

/-- Persisted lifecycle flag.  Every write path of the source stores either
"unused" or "used"; the persisted field is modelled as an Option so that the
defensive defaulting in the source (status or-else "unused") stays live for
rows whose stored status is missing or empty. -/
inductive PStatus where
  | unused
  | used
deriving DecidableEq

/-- Effective (derived, display-only) status. -/
inductive DStatus where
  | unused
  | used
  | expired
deriving DecidableEq

def PStatus.toD : PStatus → DStatus
  | .unused => .unused
  | .used => .used

/-- A date string together with its parse: ms is the epoch-millisecond value of
new Date(raw), local midnight of the calendar date. -/
structure DateV where
  raw : Str
  ms : Int
deriving DecidableEq

/-- The Voucher record of src/unnamed/part_001, as fetched from the store.
expires_on is none when the column is null or the empty string (both falsy in
the source guards). -/
structure Voucher where
  id : Str
  user_id : Option Str
  name : Str
  value : ℚ
  spent : ℚ
  category : Str
  code : Option Str
  pin : Option Str
  expires_on : Option DateV
  status : Option PStatus
  created_at : Str
deriving DecidableEq

/-- End-of-day instant of a parsed date: setHours 23 59 59 999 applied to
local midnight. -/
def endOfDayMs (d : Int) : Int := d + 86399999

/-- deriveStatus of src/src/pages/Signup.tsx lines 227-234: expiry overrides
the stored status with expired (display only); otherwise the stored status is
returned, defaulting to unused when it is missing. -/
def deriveStatus (now : Int) (v : Voucher) : DStatus :=
  match v.expires_on with
  | some d =>
      if endOfDayMs d.ms < now then DStatus.expired
      else (v.status.getD PStatus.unused).toD
  | none => (v.status.getD PStatus.unused).toD

def c2Date : DateV := { raw := "2024-01-01".toList, ms := 0 }

def c2Voucher : Voucher :=
  { id := "v1".toList
    user_id := some ("u1".toList)
    name := "Amazon".toList
    value := 1000
    spent := 0
    category := "General".toList
    code := none
    pin := none
    expires_on := some c2Date
    status := some PStatus.unused
    created_at := "t0".toList }

/-- JavaScript whitespace test used by String.prototype.trim (restricted to
the ASCII whitespace characters that can occur in the embedded strings). -/
def isWS (c : Char) : Bool :=
  c = ' ' || c = '\t' || c = '\n' || c = '\r'

/-- String.prototype.trim: drop whitespace from both ends. -/
def trim (s : Str) : Str :=
  ((s.dropWhile isWS).reverse.dropWhile isWS).reverse

/-- Math.min on finite numbers. -/
def jsMin (a b : ℚ) : ℚ := if a ≤ b then a else b

/-- Math.max on finite numbers. -/
def jsMax (a b : ℚ) : ℚ := if a ≤ b then b else a

/-- The row written by insert paths (add voucher and bulk import).  The date
column is written as a raw string here; its parse only exists once the row is
read back as a Voucher. -/
structure InsertVoucher where
  user_id : Str
  name : Str
  value : ℚ
  spent : ℚ
  category : Str
  code : Option Str
  pin : Option Str
  expires_on : Option Str
  status : PStatus
deriving DecidableEq

/-- Inputs of the add-voucher form, after the Number conversions the source
performs on the value and initial-used text fields (none = non-finite result).
An empty expiry input is the empty string. -/
structure AddInput where
  name : Str
  value : JNum
  initialUsed : JNum
  code : Str
  pin : Str
  expires : Str
  category : Str

def msgName : String := "Please enter name"
def msgValue : String := "Enter a valid amount > 0"
def msgInitNonneg : String := "Initial used amount must be nonnegative"
def msgInitExceeds : String := "Initial used amount cannot exceed total value"
def msgAmount : String := "Amount must be > 0"
def msgRemaining : String := "Amount exceeds remaining balance"
def msgNoRows : String := "No valid rows found."

/-- addVoucher of Signup.tsx lines 356-399: validates, then builds the insert
row.  The empty initial-used field is passed as some 0 by the caller, matching
the source conditional (a falsy field yields 0). -/
def addVoucher (uid : Str) (inp : AddInput) : Except String InsertVoucher :=
  if (trim inp.name).isEmpty then Except.error msgName
  else
    match inp.value with
    | none => Except.error msgValue
    | some nv =>
      if nv ≤ 0 then Except.error msgValue
      else
        match inp.initialUsed with
        | none => Except.error msgInitNonneg
        | some niu =>
          if niu < 0 then Except.error msgInitNonneg
          else if nv < niu then Except.error msgInitExceeds
          else Except.ok
            { user_id := uid
              name := trim inp.name
              value := nv
              spent := niu
              category := inp.category
              code := if (trim inp.code).isEmpty then none else some (trim inp.code)
              pin := if (trim inp.pin).isEmpty then none else some (trim inp.pin)
              expires_on := if inp.expires.isEmpty then none else some inp.expires
              status := if nv ≤ niu then PStatus.used else PStatus.unused }

/-- savePartialUsage of Signup.tsx lines 414-432: fails (alert, no write) on a
non-finite or non-positive amount and on an amount above the remaining
balance; otherwise writes the increased spent and a recomputed status. -/
def savePartialUsage (v : Voucher) (useAmount : JNum) : Except String Voucher :=
  match useAmount with
  | none => Except.error msgAmount
  | some amt =>
    if amt ≤ 0 then Except.error msgAmount
    else
      let remaining := v.value - v.spent
      if remaining < amt then Except.error msgRemaining
      else
        let newSpent := v.spent + amt
        let newStatus := if v.value ≤ newSpent then PStatus.used else PStatus.unused
        Except.ok { v with spent := newSpent, status := some newStatus }

/-- toggleStatus of Signup.tsx lines 480-488: from stored status unused it
writes spent = value and status used; from any other stored status it writes
spent = 0 and status unused. -/
def toggleStatus (v : Voucher) : Voucher :=
  if v.status = some PStatus.unused then
    { v with spent := v.value, status := some PStatus.used }
  else
    { v with spent := 0, status := some PStatus.unused }

/-- Inputs of the edit modal, after the Number conversion of the value field.
An empty expiry input is none. -/
structure EditForm where
  name : Str
  value : JNum
  category : Str
  code : Str
  pin : Str
  expires_on : Option DateV

/-- saveEdit of Signup.tsx lines 447-475, applied to the voucher being edited
(the source finds it in the fetched list by id).  Spent is clamped down to the
new value, and the status is recomputed as used exactly when the clamped spent
reaches the new value, else kept at the stored status (defaulted to unused
when missing). -/
def saveEdit (current : Voucher) (form : EditForm) : Except String Voucher :=
  if (trim form.name).isEmpty then Except.error msgName
  else
    match form.value with
    | none => Except.error msgValue
    | some nv =>
      if nv ≤ 0 then Except.error msgValue
      else
        let clampedSpent := jsMin current.spent nv
        let newStatus :=
          if nv ≤ clampedSpent then PStatus.used
          else current.status.getD PStatus.unused
        Except.ok
          { current with
            name := trim form.name
            value := nv
            category := form.category
            code := if (trim form.code).isEmpty then none else some (trim form.code)
            pin := if (trim form.pin).isEmpty then none else some (trim form.pin)
            expires_on := form.expires_on
            spent := clampedSpent
            status := some newStatus }

/-- String.prototype.toLowerCase, characterwise. -/
def lower (s : Str) : Str := s.map Char.toLower

/-- Does the first list start with the second one? -/
def startsWithStr : Str → Str → Bool
  | _, [] => true
  | [], _ :: _ => false
  | a :: as, b :: bs => a = b && startsWithStr as bs

/-- String.prototype.includes: contiguous-substring test. -/
def containsSub : Str → Str → Bool
  | [], n => n.isEmpty
  | h :: t, n => startsWithStr (h :: t) n || containsSub t n

/-- The category filter selection: the literal All or one of the category
names. -/
inductive FilterCat where
  | all
  | cat (c : Str)

/-- The SortKey union type of Signup.tsx lines 217-224. -/
inductive SortKey where
  | created_desc
  | value_desc
  | value_asc
  | expiry_asc
  | remaining_desc
  | status_used_first
  | status_unused_first

/-- The category test inside the filter callback of Signup.tsx line 303. -/
def catB (fc : FilterCat) (v : Voucher) : Bool :=
  match fc with
  | .all => true
  | .cat c => v.category == c

/-- The search test inside the filter callback of Signup.tsx lines 304-308,
applied to the already trimmed and lowercased term.  A null code never
matches (optional chaining yields a falsy result). -/
def inSearchB (term : Str) (v : Voucher) : Bool :=
  term.isEmpty
    || containsSub (lower v.name) term
    || (match v.code with
        | some c => containsSub (lower c) term
        | none => false)
    || containsSub (lower v.category) term

/-- Floored remaining balance, the remaining helper of Signup.tsx line 312. -/
def remainingQ (v : Voucher) : ℚ := jsMax 0 (v.value - v.spent)

/-- The expiry comparator of Signup.tsx lines 313-314 and 324, written as the
sign behaviour of expMs a - expMs b where a missing expiry is positive
infinity: finite minus infinity is negative, infinity minus finite is
positive, and infinity minus infinity is NaN, which the sort treats like a
tie. -/
def expCmp (a b : Voucher) : ℚ :=
  match a.expires_on, b.expires_on with
  | some x, some y => (x.ms : ℚ) - (y.ms : ℚ)
  | some _, none => -1
  | none, some _ => 1
  | none, none => 0

/-- Rank table of the status_used_first comparator (Signup.tsx line 334). -/
def rankUsedFirst : DStatus → ℚ
  | .used => 0
  | .unused => 1
  | .expired => 2

/-- Rank table of the status_unused_first comparator (Signup.tsx line 343). -/
def rankUnusedFirst : DStatus → ℚ
  | .unused => 0
  | .used => 1
  | .expired => 2

/-- Stable insertion into a list ordered by a comparator: the inserted element
goes before the first element it does not compare strictly greater than. -/
def insertC (cmp : Voucher → Voucher → ℚ) (x : Voucher) : List Voucher → List Voucher
  | [] => [x]
  | y :: ys => if cmp x y ≤ 0 then x :: y :: ys else y :: insertC cmp x ys

/-- Stable sort by a comparator.  Array.prototype.sort is specified stable,
and for the consistent comparators used here every stable sort produces the
same output, so the stable insertion sort is a faithful model; the spread
before sorting makes the source sort non-mutating, which the functional
embedding reflects by construction. -/
def sortC (cmp : Voucher → Voucher → ℚ) : List Voucher → List Voucher
  | [] => []
  | x :: xs => insertC cmp x (sortC cmp xs)

/-- The filtered memo of Signup.tsx lines 299-353: one pass filtering on
category and search together, then a per-key sort of a copy of the array
(created_desc keeps the store order untouched). -/
def filtered (now : Int) (list : List Voucher) (filterCategory : FilterCat)
    (search : Str) (sort : SortKey) : List Voucher :=
  let term := lower (trim search)
  let arr := list.filter (fun v => catB filterCategory v && inSearchB term v)
  match sort with
  | .value_desc => sortC (fun a b => b.value - a.value) arr
  | .value_asc => sortC (fun a b => a.value - b.value) arr
  | .expiry_asc => sortC expCmp arr
  | .remaining_desc => sortC (fun a b => remainingQ b - remainingQ a) arr
  | .status_used_first =>
      sortC (fun a b => rankUsedFirst (deriveStatus now a) - rankUsedFirst (deriveStatus now b)) arr
  | .status_unused_first =>
      sortC (fun a b => rankUnusedFirst (deriveStatus now a) - rankUnusedFirst (deriveStatus now b)) arr
  | .created_desc => arr

/-- Reference pipeline, stage 1, following the words of the spec: keep all if
the filter is All, else exact match on the category. -/
def specFilter (fc : FilterCat) (l : List Voucher) : List Voucher :=
  match fc with
  | .all => l
  | .cat c => l.filter (fun v => v.category == c)

/-- Reference pipeline, stage 2 predicate, following the words of the spec:
case-insensitive substring match against name, code and category. -/
def specSearchKeep (search : Str) (v : Voucher) : Bool :=
  let t := lower (trim search)
  containsSub (lower v.name) t
    || (match v.code with
        | some c => containsSub (lower c) t
        | none => false)
    || containsSub (lower v.category) t

/-- Reference pipeline, stage 2: a voucher passes if the trimmed term is empty
or matches any of the three fields. -/
def specSearch (search : Str) (l : List Voucher) : List Voucher :=
  if (trim search).isEmpty then l else l.filter (specSearchKeep search)

/-- Reference comparator for each sort key, following the words of the spec,
with the one amendment the code forces: remaining_desc orders by the floored
remaining balance max 0 (value - spent), not by the raw difference. -/
def specCmpA (key : SortKey) (now : Int) (a b : Voucher) : ℚ :=
  match key with
  | .created_desc => 0
  | .value_desc => b.value - a.value
  | .value_asc => a.value - b.value
  | .expiry_asc =>
      match a.expires_on, b.expires_on with
      | some x, some y => (x.ms : ℚ) - (y.ms : ℚ)
      | some _, none => -1
      | none, some _ => 1
      | none, none => 0
  | .remaining_desc => remainingQ b - remainingQ a
  | .status_used_first => rankUsedFirst (deriveStatus now a) - rankUsedFirst (deriveStatus now b)
  | .status_unused_first => rankUnusedFirst (deriveStatus now a) - rankUnusedFirst (deriveStatus now b)

/-- Reference comparator exactly as the claim words it: remaining_desc orders
by the raw difference value - spent descending. -/
def specCmpU (key : SortKey) (now : Int) (a b : Voucher) : ℚ :=
  match key with
  | .remaining_desc => (b.value - b.spent) - (a.value - a.spent)
  | k => specCmpA k now a b

/-- Reference pipeline (amended): filter, then search, then stable sort;
created_desc leaves the store order untouched. -/
def project (now : Int) (l : List Voucher) (fc : FilterCat) (search : Str)
    (key : SortKey) : List Voucher :=
  match key with
  | .created_desc => specSearch search (specFilter fc l)
  | k => sortC (specCmpA k now) (specSearch search (specFilter fc l))

/-- Reference pipeline exactly as the claim words it (raw remaining balance in
the remaining_desc comparator). -/
def projectClaim (now : Int) (l : List Voucher) (fc : FilterCat) (search : Str)
    (key : SortKey) : List Voucher :=
  match key with
  | .created_desc => specSearch search (specFilter fc l)
  | k => sortC (specCmpU k now) (specSearch search (specFilter fc l))

/-- A flat sheet row of the interchange format.  Numeric columns carry the
result of the Number conversion the import performs on them (none for a
non-finite outcome); text columns carry strings, with the empty string
standing for a missing cell (sheet_to_json is called with the empty-string
default value).  The status and the remaining and created_at columns are
present on exported sheets and ignored by the import. -/
structure XRow where
  name : Str
  value : JNum
  spent : JNum
  remaining : JNum
  category : Str
  code : Str
  pin : Str
  expires_on : Str
  status : Str
  created_at : Str
deriving DecidableEq

/-- The toNum helper of importExcel (Signup.tsx lines 576-579): the Number
conversion of the cell, with a non-finite result coerced to 0. -/
def toNum (s : JNum) : ℚ :=
  match s with
  | some n => n
  | none => 0

/-- One row of the bulk-import mapping (Signup.tsx lines 582-596).  The
or-zero guard on the spent cell is dropped because it cannot change the value
of the subsequent toNum coercion: the falsy cells are the number zero, NaN and
the empty string, and toNum sends each of them to 0. -/
def importRow (uid : Str) (r : XRow) : InsertVoucher :=
  let value := toNum r.value
  let spent := jsMax 0 (toNum r.spent)
  { user_id := uid
    name := trim r.name
    value := value
    spent := jsMin spent value
    category := if r.category.isEmpty then "General".toList else r.category
    code := if r.code.isEmpty then none else some r.code
    pin := if r.pin.isEmpty then none else some r.pin
    expires_on := if r.expires_on.isEmpty then none else some r.expires_on
    status := if value ≤ spent then PStatus.used else PStatus.unused }

/-- The keep test of the bulk-import filter (Signup.tsx line 597): a truthy
name and a positive value. -/
def keepRow (r : InsertVoucher) : Bool :=
  !r.name.isEmpty && decide (0 < r.value)

/-- importExcel of Signup.tsx lines 564-603: map every sheet row, drop the
invalid ones, and insert the survivors as one batch; with no survivor
the import fails and nothing is written. -/
def importExcel (uid : Str) (rows : List XRow) : Except String (List InsertVoucher) :=
  let payload := (rows.map (importRow uid)).filter keepRow
  if payload.isEmpty then Except.error msgNoRows else Except.ok payload

/-- The display string of a derived status, as exported. -/
def statusStr : DStatus → Str
  | .unused => "unused".toList
  | .used => "used".toList
  | .expired => "expired".toList

/-- One exported row (Signup.tsx lines 518-529): the voucher flattened with a
floored remaining column, nullish code, pin and expiry replaced by the empty
string, and the derived status. -/
def exportRow (now : Int) (v : Voucher) : XRow :=
  { name := v.name
    value := some v.value
    spent := some v.spent
    remaining := some (jsMax 0 (v.value - v.spent))
    category := v.category
    code := v.code.getD []
    pin := v.pin.getD []
    expires_on := (v.expires_on.map DateV.raw).getD []
    status := statusStr (deriveStatus now v)
    created_at := v.created_at }

/-- All exported rows in list order. -/
def exportRows (now : Int) (l : List Voucher) : List XRow :=
  l.map (exportRow now)

/-- A sheet cell: a string or a number. -/
inductive Cell where
  | cs (s : Str)
  | cn (n : JNum)
deriving DecidableEq

/-- The fixed export column order: the key order of the exported row object
literal. -/
def exportColumns : List Str :=
  ["name".toList, "value".toList, "spent".toList, "remaining".toList,
   "category".toList, "code".toList, "pin".toList, "expires_on".toList,
   "status".toList, "created_at".toList]

/-- The header row the export writes (Signup.tsx line 543): the keys of the
first row object, or the keys of the fallback object with the single key
sample when the list is empty. -/
def exportHeaders (l : List Voucher) : List Str :=
  match l with
  | [] => ["sample".toList]
  | _ :: _ => exportColumns

/-- Field access r[h] on an exported row object.  An unknown key would read as
undefined in the source; it is unreachable because data rows exist only when
the headers are the ten row keys, and is mapped to an empty-string cell. -/
def fieldGet (r : XRow) (h : Str) : Cell :=
  if h = "name".toList then Cell.cs r.name
  else if h = "value".toList then Cell.cn r.value
  else if h = "spent".toList then Cell.cn r.spent
  else if h = "remaining".toList then Cell.cn r.remaining
  else if h = "category".toList then Cell.cs r.category
  else if h = "code".toList then Cell.cs r.code
  else if h = "pin".toList then Cell.cs r.pin
  else if h = "expires_on".toList then Cell.cs r.expires_on
  else if h = "status".toList then Cell.cs r.status
  else if h = "created_at".toList then Cell.cs r.created_at
  else Cell.cs []

/-- The array-of-arrays sheet the export serializes (Signup.tsx lines
543-547): the header row followed by one row of cells per voucher, each cell
looked up by header key. -/
def exportData (now : Int) (l : List Voucher) : List (List Cell) :=
  (exportHeaders l).map Cell.cs ::
    (exportRows now l).map (fun r => (exportHeaders l).map (fieldGet r))

/-- Concrete voucher builder for the closed witness and counterexample
statements below. -/
def mkV (value spent : ℚ) (status : Option PStatus) : Voucher :=
  { id := "id1".toList
    user_id := some ("u".toList)
    name := "Gift".toList
    value := value
    spent := spent
    category := "General".toList
    code := none
    pin := none
    expires_on := none
    status := status
    created_at := "t".toList }

def c1U : Str := "u".toList

def c1Inp : AddInput :=
  { name := "Amazon".toList
    value := some 1000
    initialUsed := some 0
    code := []
    pin := []
    expires := []
    category := "General".toList }

def c1Ins : InsertVoucher :=
  { user_id := c1U
    name := "Amazon".toList
    value := 1000
    spent := 0
    category := "General".toList
    code := none
    pin := none
    expires_on := none
    status := PStatus.unused }

def c1V : Voucher := mkV 1000 200 (some PStatus.unused)

def c1V' : Voucher := { c1V with spent := 1000, status := some PStatus.used }

def c1Form : EditForm :=
  { name := "Gift".toList
    value := some 150
    category := "General".toList
    code := []
    pin := []
    expires_on := none }

def c1W : Voucher :=
  { c1V with
    name := "Gift".toList
    value := 150
    category := "General".toList
    code := none
    pin := none
    expires_on := none
    spent := 150
    status := some PStatus.used }

def c1Row : XRow :=
  { name := "Gift".toList
    value := some 300
    spent := some 400
    remaining := some 0
    category := []
    code := []
    pin := []
    expires_on := []
    status := []
    created_at := [] }

def c3Voucher : Voucher := mkV 1000 500 (some PStatus.used)

def c4Cex : Voucher := mkV 1000 300 (some PStatus.unused)

def c4Wit : Voucher := mkV 250 100 (some PStatus.used)

def c5Voucher : Voucher := mkV 1000 700 (some PStatus.unused)

def c5Form : EditForm :=
  { name := "Amazon".toList
    value := some 500
    category := "General".toList
    code := []
    pin := []
    expires_on := none }

def c6U : Str := "u6".toList

def c6Row : XRow :=
  { name := "Gift".toList
    value := some 300
    spent := some 400
    remaining := some 0
    category := []
    code := []
    pin := []
    expires_on := []
    status := []
    created_at := [] }

def c6RowEmptyName : XRow :=
  { c6Row with name := [], value := some 500 }

def c6RowZeroValue : XRow :=
  { c6Row with value := some 0 }

def c6Rows : List XRow := [c6RowEmptyName, c6RowZeroValue, c6Row]

def c7A : Voucher := mkV 100 150 (some PStatus.unused)

def c7B : Voucher := mkV 100 120 (some PStatus.unused)

def c7List : List Voucher := [c7A, c7B]

def c8Zero : Voucher := mkV 0 0 (some PStatus.unused)

def c8V : Voucher := mkV 300 120 (some PStatus.used)

def c9V : Voucher := mkV 100 40 (some PStatus.unused)

def c10Voucher : Voucher := mkV 300 200 (some PStatus.used)

def c10Form : EditForm :=
  { name := "Gift".toList
    value := some 500
    category := "General".toList
    code := []
    pin := []
    expires_on := none }

/-- C2: deriveStatus returns expired exactly when an expiry date is present
and now is strictly after its end-of-day instant; otherwise it returns the
persisted status, defaulting to unused when the persisted status is unset.
It is a pure function of the voucher and the instant by construction. -/
theorem deriveStatus_expiry_rule (now : Int) (v : Voucher) :
    (deriveStatus now v = DStatus.expired ↔
      ∃ d, v.expires_on = some d ∧ endOfDayMs d.ms < now)
    ∧ (v.expires_on = none →
        deriveStatus now v = (v.status.getD PStatus.unused).toD)
    ∧ (∀ d, v.expires_on = some d → ¬ endOfDayMs d.ms < now →
        deriveStatus now v = (v.status.getD PStatus.unused).toD) := by
  refine ⟨?_, ?_, ?_⟩
  · constructor
    · intro h
      match hx : v.expires_on with
      | some d =>
          refine ⟨d, rfl, ?_⟩
          by_contra hlt
          simp only [deriveStatus, hx, if_neg hlt] at h
          cases hs : v.status.getD PStatus.unused <;> simp [hs, PStatus.toD] at h
      | none =>
          simp only [deriveStatus, hx] at h
          cases hs : v.status.getD PStatus.unused <;> simp [hs, PStatus.toD] at h
    · rintro ⟨d, hd, hlt⟩
      simp [deriveStatus, hd, hlt]
  · intro h
    simp [deriveStatus, h]
  · intro d hd hlt
    simp [deriveStatus, hd, hlt]

/-- Witness for C2: one millisecond after end of day the status is expired;
at the end-of-day instant itself the persisted status (unused) is returned. -/
theorem deriveStatus_expiry_rule_witness :
    deriveStatus 86400000 c2Voucher = DStatus.expired
    ∧ deriveStatus 86399999 c2Voucher = DStatus.unused := by
  constructor
  · exact (deriveStatus_expiry_rule 86400000 c2Voucher).1.mpr
      ⟨c2Date, rfl, by decide⟩
  · have h := (deriveStatus_expiry_rule 86399999 c2Voucher).2.2 c2Date rfl
      (by decide)
    simpa [c2Voucher, PStatus.toD] using h

theorem jsMin_le_left (a b : ℚ) : jsMin a b ≤ a := by
  unfold jsMin; split
  · exact le_refl a
  · linarith [lt_of_not_le (by assumption : ¬ a ≤ b)]

theorem jsMin_le_right (a b : ℚ) : jsMin a b ≤ b := by
  unfold jsMin; split
  · assumption
  · exact le_refl b

theorem le_jsMin {a b c : ℚ} (h1 : c ≤ a) (h2 : c ≤ b) : c ≤ jsMin a b := by
  unfold jsMin; split <;> assumption

theorem jsMin_eq_right {a b : ℚ} (h : b ≤ a) : jsMin a b = b := by
  unfold jsMin; split
  · exact le_antisymm (by assumption) h
  · rfl

theorem jsMax_zero_nonneg (x : ℚ) : 0 ≤ jsMax 0 x := by
  unfold jsMax; split
  · assumption
  · exact le_refl 0

theorem jsMax_zero_eq {x : ℚ} (h : 0 ≤ x) : jsMax 0 x = x := by
  unfold jsMax; split
  · rfl
  · exact absurd h (by assumption)

theorem le_jsMin_iff {a b c : ℚ} : c ≤ jsMin a b ↔ c ≤ a ∧ c ≤ b := by
  constructor
  · intro h
    exact ⟨le_trans h (jsMin_le_left a b), le_trans h (jsMin_le_right a b)⟩
  · intro h
    exact le_jsMin h.1 h.2

/-- C1: every successful ledger mutation (add, partial use, toggle, edit,
bulk-import row construction) writes a voucher state satisfying
0 ≤ spent ≤ value, assuming the input voucher satisfies 0 ≤ spent ≤ value. -/
theorem ledger_mutations_preserve_invariant
    (uid : Str) (inp : AddInput) (ins : InsertVoucher)
    (v : Voucher) (a : JNum) (v' : Voucher)
    (form : EditForm) (w : Voucher) (r : XRow) :
    (addVoucher uid inp = Except.ok ins → 0 ≤ ins.spent ∧ ins.spent ≤ ins.value)
    ∧ (0 ≤ v.spent → v.spent ≤ v.value →
        savePartialUsage v a = Except.ok v' → 0 ≤ v'.spent ∧ v'.spent ≤ v'.value)
    ∧ (0 ≤ v.spent → v.spent ≤ v.value →
        0 ≤ (toggleStatus v).spent ∧ (toggleStatus v).spent ≤ (toggleStatus v).value)
    ∧ (0 ≤ v.spent → saveEdit v form = Except.ok w →
        0 ≤ w.spent ∧ w.spent ≤ w.value)
    ∧ (0 < (importRow uid r).value →
        0 ≤ (importRow uid r).spent ∧ (importRow uid r).spent ≤ (importRow uid r).value) := by
  refine ⟨?_, ?_, ?_, ?_, ?_⟩
  · intro h
    unfold addVoucher at h
    split at h
    · cases h
    · split at h
      · cases h
      · rename_i nv
        split at h
        · cases h
        · split at h
          · cases h
          · rename_i niu
            split at h
            · cases h
            · split at h
              · cases h
              · rename_i hv0 hniu hlt
                rw [Except.ok.injEq] at h
                subst h
                exact ⟨le_of_not_lt hniu, le_of_not_lt hlt⟩
  · intro h0 h1 h
    unfold savePartialUsage at h
    split at h
    · cases h
    · rename_i amt
      split at h
      · cases h
      · rename_i hpos
        dsimp only at h
        split at h
        · cases h
        · rename_i hrem
          rw [Except.ok.injEq] at h
          subst h
          refine ⟨?_, ?_⟩
          · show 0 ≤ v.spent + amt
            linarith [lt_of_not_le hpos]
          · show v.spent + amt ≤ v.value
            linarith [le_of_not_lt hrem]
  · intro h0 h1
    unfold toggleStatus
    split
    · refine ⟨?_, ?_⟩
      · show 0 ≤ v.value
        linarith
      · show v.value ≤ v.value
        linarith
    · refine ⟨?_, ?_⟩
      · show 0 ≤ (0:ℚ)
        linarith
      · show 0 ≤ v.value
        linarith
  · intro h0 h
    unfold saveEdit at h
    split at h
    · cases h
    · split at h
      · cases h
      · rename_i nv hveq
        split at h
        · cases h
        · rename_i hnv
          dsimp only at h
          rw [Except.ok.injEq] at h
          subst h
          refine ⟨le_jsMin h0 ?_, jsMin_le_right v.spent nv⟩
          linarith [lt_of_not_le hnv]
  · intro h
    simp only [importRow] at h ⊢
    refine ⟨le_jsMin (jsMax_zero_nonneg (toNum r.spent)) (le_of_lt h), ?_⟩
    exact jsMin_le_right (jsMax 0 (toNum r.spent)) (toNum r.value)

/-- Witness for C1: the invariant conclusions at the spec's own examples
(add of Amazon 1000/0, partial use of 800 on 1000/200, a toggle, an edit
down to 150, and the bulk-import row Gift 300/400). -/
theorem ledger_mutations_preserve_invariant_witness :
    (0 ≤ c1Ins.spent ∧ c1Ins.spent ≤ c1Ins.value)
    ∧ (0 ≤ c1V'.spent ∧ c1V'.spent ≤ c1V'.value)
    ∧ (0 ≤ (toggleStatus c1V).spent ∧ (toggleStatus c1V).spent ≤ (toggleStatus c1V).value)
    ∧ (0 ≤ c1W.spent ∧ c1W.spent ≤ c1W.value)
    ∧ (0 ≤ (importRow c1U c1Row).spent
        ∧ (importRow c1U c1Row).spent ≤ (importRow c1U c1Row).value) := by
  have h := ledger_mutations_preserve_invariant c1U c1Inp c1Ins c1V (some 800)
    c1V' c1Form c1W c1Row
  refine ⟨h.1 ?_, h.2.1 ?_ ?_ ?_, h.2.2.1 ?_ ?_, h.2.2.2.1 ?_ ?_, h.2.2.2.2 ?_⟩
  · rfl
  · decide
  · decide
  · norm_num [savePartialUsage, c1V, c1V', mkV]
  · decide
  · decide
  · decide
  · rfl
  · decide

/-- Counterexample for C3: on the voucher value 1000, spent 500, persisted
status used (reachable by editing a used voucher up), a partial use of 100
succeeds with new spent 600 strictly below the value, yet the stored status
changes to unused instead of staying unchanged. -/
theorem savePartialUsage_status_cex :
    savePartialUsage c3Voucher (some 100)
      = Except.ok { c3Voucher with spent := 600, status := some PStatus.unused }
    ∧ (600:ℚ) < c3Voucher.value
    ∧ some PStatus.unused ≠ c3Voucher.status := by
  refine ⟨?_, ?_, ?_⟩
  · norm_num [savePartialUsage, c3Voucher, mkV]
  · decide
  · decide

/-- C3 (amended): partial use on a voucher with remaining = value - spent
fails with a validation error, issuing no write, when the amount is
non-positive or exceeds the remaining balance; for 0 < a ≤ remaining it
succeeds with spent increased by a and the status recomputed from the new
spent: used when it reaches the value, else unused (the prior persisted
status is not kept; the write always carries the recomputed flag). -/
theorem savePartialUsage_spec (v : Voucher) (a : ℚ) :
    ((a ≤ 0 ∨ v.value - v.spent < a) →
      ∃ e, savePartialUsage v (some a) = Except.error e)
    ∧ (0 < a → a ≤ v.value - v.spent →
      savePartialUsage v (some a) = Except.ok
        { v with
          spent := v.spent + a
          status := some (if v.value ≤ v.spent + a then PStatus.used
                          else PStatus.unused) }) := by
  constructor
  · intro hcase
    simp only [savePartialUsage]
    by_cases h0 : a ≤ 0
    · rw [if_pos h0]
      exact ⟨msgAmount, rfl⟩
    · rw [if_neg h0]
      rcases hcase with hle | hgt
      · exact absurd hle h0
      · rw [if_pos hgt]
        exact ⟨msgRemaining, rfl⟩
  · intro h1 h2
    simp only [savePartialUsage]
    rw [if_neg (not_le.mpr h1)]
    rw [if_neg (not_lt.mpr h2)]

/-- Witness for C3: on the voucher value 1000, spent 500, an amount of 600
exceeds the remaining 500 and is rejected, while an amount of 200 succeeds
with spent 700 and status unused. -/
theorem savePartialUsage_spec_witness :
    (∃ e, savePartialUsage c3Voucher (some 600) = Except.error e)
    ∧ savePartialUsage c3Voucher (some 200) = Except.ok
        { c3Voucher with spent := 700, status := some PStatus.unused } := by
  constructor
  · exact (savePartialUsage_spec c3Voucher 600).1
      (Or.inr (by norm_num [c3Voucher, mkV]))
  · have h := (savePartialUsage_spec c3Voucher 200).2 (by norm_num)
      (by norm_num [c3Voucher, mkV])
    rw [h]
    norm_num [c3Voucher, mkV]

/-- Counterexample for C4: on the voucher value 1000, spent 300, status
unused, toggling twice yields spent 0, not the original 300, so the double
toggle does not restore spent. -/
theorem toggleStatus_double_cex :
    (toggleStatus (toggleStatus c4Cex)).spent ≠ c4Cex.spent
    ∧ (toggleStatus (toggleStatus c4Cex)).spent = 0
    ∧ c4Cex.spent = 300 := by decide

/-- C4 (amended): for a voucher whose persisted status is unused or used,
toggling twice restores the status; the spent after two toggles is the
extreme belonging to that status, 0 when unused and value when used, so spent
is restored exactly when it already sat at that extreme.  A single toggle
from unused sets spent = value and status used; from used it sets spent = 0
and status unused. -/
theorem toggleStatus_flip_spec (v : Voucher)
    (h : v.status = some PStatus.unused ∨ v.status = some PStatus.used) :
    (toggleStatus (toggleStatus v)).status = v.status
    ∧ (toggleStatus (toggleStatus v)).spent
        = (if v.status = some PStatus.unused then 0 else v.value)
    ∧ (v.status = some PStatus.unused →
        toggleStatus v = { v with spent := v.value, status := some PStatus.used })
    ∧ (v.status = some PStatus.used →
        toggleStatus v = { v with spent := 0, status := some PStatus.unused }) := by
  rcases h with h | h <;> simp [toggleStatus, h]

/-- Witness for C4 at the voucher value 250, spent 100, status used. -/
theorem toggleStatus_flip_spec_witness :
    (toggleStatus (toggleStatus c4Wit)).status = c4Wit.status
    ∧ (toggleStatus (toggleStatus c4Wit)).spent
        = (if c4Wit.status = some PStatus.unused then 0 else c4Wit.value)
    ∧ (c4Wit.status = some PStatus.unused →
        toggleStatus c4Wit = { c4Wit with spent := c4Wit.value, status := some PStatus.used })
    ∧ (c4Wit.status = some PStatus.used →
        toggleStatus c4Wit = { c4Wit with spent := 0, status := some PStatus.unused }) :=
  toggleStatus_flip_spec c4Wit (Or.inr rfl)

/-- C5: edit with a valid non-empty name and positive new value stores a
spent clamped down to the new value and never raised above the prior spent
(in particular equal to the new value whenever that is below the prior
spent), and a status recomputed as used when the clamped spent reaches the
new value, else equal to the prior persisted status. -/
theorem saveEdit_clamp_spec (current : Voucher) (form : EditForm) (q : ℚ)
    (s : PStatus)
    (hname : (trim form.name).isEmpty = false)
    (hv : form.value = some q) (hq : 0 < q)
    (hs : current.status = some s) :
    ∃ w, saveEdit current form = Except.ok w
      ∧ w.value = q
      ∧ w.spent = jsMin current.spent q
      ∧ w.spent ≤ current.spent
      ∧ (q < current.spent → w.spent = q)
      ∧ w.status = some (if q ≤ w.spent then PStatus.used else s) := by
  have hn : ¬ ((trim form.name).isEmpty = true) := by simp [hname]
  simp only [saveEdit, hv]
  rw [if_neg hn, if_neg (not_le.mpr hq)]
  refine ⟨_, rfl, rfl, rfl, jsMin_le_left _ _,
    fun h => jsMin_eq_right (le_of_lt h), ?_⟩
  simp [hs]

/-- Witness for C5, the example of the claim: editing the voucher value 1000,
spent 700 down to value 500 stores spent 500 with status used. -/
theorem saveEdit_clamp_spec_witness :
    ∃ w, saveEdit c5Voucher c5Form = Except.ok w
      ∧ w.spent = 500 ∧ w.status = some PStatus.used := by
  obtain ⟨w, hok, hval, hsp, hle, hdown, hst⟩ :=
    saveEdit_clamp_spec c5Voucher c5Form 500 PStatus.unused (by decide) rfl
      (by decide) rfl
  have hsp5 : w.spent = (500:ℚ) := by
    rw [hsp]; decide
  refine ⟨w, hok, hsp5, ?_⟩
  rw [hst, hsp5]
  norm_num

/-- C10: when the clamped spent stays strictly below the new value, edit
keeps the prior persisted status unchanged, so a voucher persisted as used
can be stored with status used and spent strictly below value; the
status-balance correspondence is not forced by edit. -/
theorem saveEdit_keeps_status_spec (current : Voucher) (form : EditForm)
    (q : ℚ) (s : PStatus)
    (hname : (trim form.name).isEmpty = false)
    (hv : form.value = some q) (hq : 0 < q)
    (hs : current.status = some s)
    (hlt : jsMin current.spent q < q) :
    ∃ w, saveEdit current form = Except.ok w
      ∧ w.status = some s
      ∧ w.spent < w.value := by
  have hn : ¬ ((trim form.name).isEmpty = true) := by simp [hname]
  simp only [saveEdit, hv]
  rw [if_neg hn, if_neg (not_le.mpr hq)]
  refine ⟨_, rfl, ?_, ?_⟩
  · show some (if q ≤ jsMin current.spent q then PStatus.used
      else current.status.getD PStatus.unused) = some s
    rw [if_neg (not_le.mpr hlt), hs]
    rfl
  · exact hlt

/-- Witness for C10: editing the voucher value 300, spent 200, status used up
to value 500 keeps status used with spent 200 strictly below value 500. -/
theorem saveEdit_keeps_status_spec_witness :
    ∃ w, saveEdit c10Voucher c10Form = Except.ok w
      ∧ w.status = some PStatus.used
      ∧ w.spent < w.value :=
  saveEdit_keeps_status_spec c10Voucher c10Form 500 PStatus.used (by decide)
    rfl (by decide) rfl (by decide)

/-- C6: bulk import parses numeric cells with non-finite results coerced to
0, trims the name, clamps spent into the interval from 0 to value (stated for
the rows that survive, value positive), computes status as used exactly when
the clamped spent reaches the value, drops rows with an empty trimmed name or
non-positive value, inserts the survivors as one batch, and fails with a
validation error, writing nothing, when no valid row exists. -/
theorem importExcel_spec (uid : Str) (rows : List XRow) (r : XRow) :
    toNum none = 0
    ∧ (importRow uid r).name = trim r.name
    ∧ (0 < toNum r.value →
        0 ≤ (importRow uid r).spent
          ∧ (importRow uid r).spent ≤ (importRow uid r).value)
    ∧ ((importRow uid r).status = PStatus.used ↔
        (importRow uid r).value ≤ (importRow uid r).spent)
    ∧ keepRow (importRow uid r)
        = (!(trim r.name).isEmpty && decide (0 < toNum r.value))
    ∧ (importExcel uid rows =
        if ((rows.map (importRow uid)).filter keepRow).isEmpty
        then Except.error msgNoRows
        else Except.ok ((rows.map (importRow uid)).filter keepRow)) := by
  refine ⟨rfl, rfl, ?_, ?_, rfl, rfl⟩
  · intro h
    exact ⟨le_jsMin (jsMax_zero_nonneg (toNum r.spent)) (le_of_lt h),
      jsMin_le_right (jsMax 0 (toNum r.spent)) (toNum r.value)⟩
  · by_cases hc : toNum r.value ≤ jsMax 0 (toNum r.spent)
    · simp [importRow, hc, le_jsMin_iff]
    · simp [importRow, hc, le_jsMin_iff]

/-- Witness for C6 on the three-row sheet of the claim examples: the row with
an empty name and the row with value 0 are dropped, and the surviving row
Gift value 300 spent 400 is inserted clamped. -/
theorem importExcel_spec_witness :
    (0 ≤ (importRow c6U c6Row).spent
      ∧ (importRow c6U c6Row).spent ≤ (importRow c6U c6Row).value)
    ∧ importExcel c6U c6Rows = Except.ok [importRow c6U c6Row] := by
  have h := importExcel_spec c6U c6Rows c6Row
  refine ⟨h.2.2.1 (by decide), ?_⟩
  rw [h.2.2.2.2.2]
  rfl

theorem lower_isEmpty (s : Str) : (lower s).isEmpty = s.isEmpty := by
  cases s <;> rfl

theorem inSearchB_empty_term (s : Str) (h : (trim s).isEmpty = true)
    (v : Voucher) : inSearchB (lower (trim s)) v = true := by
  unfold inSearchB
  rw [lower_isEmpty, h]
  rfl

theorem inSearchB_nonempty_term (s : Str) (h : (trim s).isEmpty = false)
    (v : Voucher) : inSearchB (lower (trim s)) v = specSearchKeep s v := by
  unfold inSearchB specSearchKeep
  rw [lower_isEmpty, h]
  rfl

theorem filter_stage_eq (l : List Voucher) (fc : FilterCat) (s : Str) :
    l.filter (fun v => catB fc v && inSearchB (lower (trim s)) v)
      = specSearch s (specFilter fc l) := by
  cases fc with
  | all =>
      unfold specFilter specSearch
      by_cases h : (trim s).isEmpty
      · rw [if_pos h]
        refine List.filter_eq_self.mpr ?_
        intro v hv
        rw [inSearchB_empty_term s h]
        rfl
      · rw [if_neg h]
        refine List.filter_congr ?_
        intro v hv
        rw [inSearchB_nonempty_term s (Bool.not_eq_true _ ▸ eq_false_of_ne_true h)]
        simp [catB]
  | cat c =>
      unfold specFilter specSearch
      by_cases h : (trim s).isEmpty
      · rw [if_pos h]
        refine List.filter_congr ?_
        intro v hv
        rw [inSearchB_empty_term s h]
        simp [catB]
      · rw [if_neg h]
        rw [List.filter_filter]
        refine List.filter_congr ?_
        intro v hv
        rw [inSearchB_nonempty_term s (eq_false_of_ne_true h)]
        simp [catB, Bool.and_comm]

/-- C7 (amended): the displayed list equals the reference pipeline applied in
order filter then search then sort: keep a voucher iff the filter is All or
its category matches exactly, and the trimmed term is empty or a
case-insensitive substring of name, code or category; then order with a
non-mutating sort, stable on ties, by the key: expiry_asc ascending with
missing expiry last (positive infinity), remaining_desc by the floored
remaining balance max 0 (value - spent) descending, the status keys by their
rank tables, and created_desc leaving the stored order untouched. -/
theorem projection_pipeline_eq (now : Int) (l : List Voucher)
    (fc : FilterCat) (s : Str) (k : SortKey) :
    filtered now l fc s k = project now l fc s k := by
  cases k <;>
    simp only [filtered, project] <;>
    rw [filter_stage_eq] <;>
    rfl

/-- Counterexample for C7 as stated: under remaining_desc the code sorts by
the floored remaining balance, not by value - spent; on two vouchers with
spent above value (value 100 with spent 150 and spent 120) the code sees two
ties and keeps their order while the claimed comparator swaps them. -/
theorem projection_remaining_cex :
    filtered 0 c7List FilterCat.all [] SortKey.remaining_desc
      ≠ projectClaim 0 c7List FilterCat.all [] SortKey.remaining_desc := by
  have hcode : filtered 0 c7List FilterCat.all [] SortKey.remaining_desc
      = [c7A, c7B] := by
    norm_num [filtered, sortC, insertC, remainingQ, jsMax, catB, inSearchB,
      trim, lower, c7List, c7A, c7B, mkV]
  have hclaim : projectClaim 0 c7List FilterCat.all [] SortKey.remaining_desc
      = [c7B, c7A] := by
    norm_num [projectClaim, specSearch, specFilter, specCmpU, sortC, insertC,
      trim, c7List, c7A, c7B, mkV]
  rw [hcode, hclaim]
  simp [c7A, c7B, mkV]

theorem jsMin_eq_left {a b : ℚ} (h : a ≤ b) : jsMin a b = a := by
  unfold jsMin
  rw [if_pos h]

theorem roundtrip_row (uid : Str) (now : Int) (v : Voucher)
    (hn : trim v.name = v.name) (h0 : 0 ≤ v.spent) (h1 : v.spent ≤ v.value) :
    (importRow uid (exportRow now v)).name = v.name
    ∧ (importRow uid (exportRow now v)).value = v.value
    ∧ (importRow uid (exportRow now v)).spent = v.spent
    ∧ (v.category ≠ [] → (importRow uid (exportRow now v)).category = v.category)
    ∧ (importRow uid (exportRow now v)).status
        = (if v.value ≤ v.spent then PStatus.used else PStatus.unused) := by
  refine ⟨hn, rfl, ?_, ?_, ?_⟩
  · show jsMin (jsMax 0 v.spent) v.value = v.spent
    rw [jsMax_zero_eq h0]
    exact jsMin_eq_left h1
  · intro hc
    show (if v.category.isEmpty then "General".toList else v.category) = v.category
    cases hcat : v.category with
    | nil => exact absurd hcat hc
    | cons a t => rfl
  · show (if v.value ≤ jsMax 0 v.spent then PStatus.used else PStatus.unused)
      = (if v.value ≤ v.spent then PStatus.used else PStatus.unused)
    rw [jsMax_zero_eq h0]

/-- C8 (amended): for every nonempty voucher list whose vouchers have a
trimmed nonempty name, a nonempty category, a positive value and
0 ≤ spent ≤ value, exporting to rows and importing those rows back succeeds
and reproduces the same sequence (hence the same multiset) of
(name, value, spent, category) tuples, with every imported status recomputed
from spent and value rather than taken from the exported status column. -/
theorem roundtrip_spec (uid : Str) (now : Int) (l : List Voucher)
    (hne : l ≠ [])
    (h : ∀ v ∈ l, trim v.name = v.name ∧ v.name ≠ [] ∧ v.category ≠ []
          ∧ 0 < v.value ∧ 0 ≤ v.spent ∧ v.spent ≤ v.value) :
    ∃ p, importExcel uid (exportRows now l) = Except.ok p
      ∧ p.map (fun r => (r.name, r.value, r.spent, r.category))
          = l.map (fun v => (v.name, v.value, v.spent, v.category))
      ∧ ∀ r ∈ p, r.status
          = (if r.value ≤ r.spent then PStatus.used else PStatus.unused) := by
  have hkeep : ∀ v ∈ l, keepRow (importRow uid (exportRow now v)) = true := by
    intro v hv
    obtain ⟨hn, hnm, hcat, hval, h0, h1⟩ := h v hv
    obtain ⟨hname, hvalue, hspent, -, -⟩ := roundtrip_row uid now v hn h0 h1
    simp [keepRow, hname, hvalue, hnm, hval, List.isEmpty_iff]
  have hmap : (exportRows now l).map (importRow uid)
      = l.map (fun v => importRow uid (exportRow now v)) := by
    simp [exportRows, List.map_map, Function.comp]
  have hfil : (l.map (fun v => importRow uid (exportRow now v))).filter keepRow
      = l.map (fun v => importRow uid (exportRow now v)) := by
    refine List.filter_eq_self.mpr ?_
    intro r hr
    obtain ⟨v, hv, rfl⟩ := List.mem_map.mp hr
    exact hkeep v hv
  have hnonempty :
      ¬ ((l.map (fun v => importRow uid (exportRow now v))).isEmpty = true) := by
    simp [List.isEmpty_iff, hne]
  refine ⟨l.map (fun v => importRow uid (exportRow now v)), ?_, ?_, ?_⟩
  · simp only [importExcel]
    rw [hmap, hfil, if_neg hnonempty]
  · rw [List.map_map]
    refine List.map_eq_map_iff.mpr ?_
    intro v hv
    obtain ⟨hn, hnm, hcat, hval, h0, h1⟩ := h v hv
    obtain ⟨hname, hvalue, hspent, hcatg, -⟩ := roundtrip_row uid now v hn h0 h1
    simp [Function.comp, hname, hvalue, hspent, hcatg hcat]
  · intro r hr
    obtain ⟨v, hv, rfl⟩ := List.mem_map.mp hr
    obtain ⟨hn, hnm, hcat, hval, h0, h1⟩ := h v hv
    obtain ⟨hname, hvalue, hspent, -, hstat⟩ := roundtrip_row uid now v hn h0 h1
    rw [hstat, hvalue, hspent]

/-- Witness for C8 at the singleton list holding the voucher Gift, value 300,
spent 120, persisted status used. -/
theorem roundtrip_spec_witness :
    ∃ p, importExcel ("u".toList) (exportRows 0 [c8V]) = Except.ok p
      ∧ p.map (fun r => (r.name, r.value, r.spent, r.category))
          = [c8V].map (fun v => (v.name, v.value, v.spent, v.category))
      ∧ ∀ r ∈ p, r.status
          = (if r.value ≤ r.spent then PStatus.used else PStatus.unused) := by
  refine roundtrip_spec ("u".toList) 0 [c8V] (by simp) ?_
  intro v hv
  rw [List.mem_singleton.mp hv]
  refine ⟨by decide, by decide, by decide, by decide, by decide, by decide⟩

/-- Counterexample for C8 as stated: the singleton list holding a voucher
with value 0 and spent 0 satisfies 0 ≤ spent ≤ value, yet export followed
by import fails with the no-valid-rows error (the row is dropped for its
non-positive value), so the tuples are not reproduced. -/
theorem roundtrip_cex :
    ((0:ℚ) ≤ c8Zero.spent ∧ c8Zero.spent ≤ c8Zero.value)
    ∧ importExcel ("u".toList) (exportRows 0 [c8Zero]) = Except.error msgNoRows := by
  refine ⟨by decide, ?_⟩
  rfl

theorem exportColumns_cells (r : XRow) :
    exportColumns.map (fieldGet r)
      = [Cell.cs r.name, Cell.cn r.value, Cell.cn r.spent, Cell.cn r.remaining,
         Cell.cs r.category, Cell.cs r.code, Cell.cs r.pin,
         Cell.cs r.expires_on, Cell.cs r.status, Cell.cs r.created_at] := by
  rfl

/-- C9 (amended): for every nonempty voucher list whose vouchers satisfy
spent ≤ value, each voucher maps to a flat row with fields in the fixed order
name, value, spent, remaining = value - spent, category, code, pin,
expires_on, derived status, created_at, and the header row of the sheet is
exactly this column list in this order; for the empty list the sheet instead
consists of the single placeholder header column sample. -/
theorem export_rows_spec (now : Int) (l : List Voucher) (hne : l ≠ [])
    (hinv : ∀ v ∈ l, v.spent ≤ v.value) :
    exportData now l
      = exportColumns.map Cell.cs ::
        l.map (fun v =>
          [Cell.cs v.name, Cell.cn (some v.value), Cell.cn (some v.spent),
           Cell.cn (some (v.value - v.spent)), Cell.cs v.category,
           Cell.cs (v.code.getD []), Cell.cs (v.pin.getD []),
           Cell.cs ((v.expires_on.map DateV.raw).getD []),
           Cell.cs (statusStr (deriveStatus now v)), Cell.cs v.created_at]) := by
  cases l with
  | nil => exact absurd rfl hne
  | cons v0 t =>
      unfold exportData
      simp only [exportHeaders]
      congr 1
      simp only [exportRows, List.map_map]
      refine List.map_eq_map_iff.mpr ?_
      intro v hv
      have hrem : jsMax 0 (v.value - v.spent) = v.value - v.spent :=
        jsMax_zero_eq (sub_nonneg.mpr (hinv v hv))
      show exportColumns.map (fieldGet (exportRow now v)) = _
      rw [exportColumns_cells]
      simp only [exportRow]
      rw [hrem]

/-- Witness for C9 at the singleton list holding the voucher Gift, value 100,
spent 40. -/
theorem export_rows_spec_witness :
    exportData 0 [c9V]
      = exportColumns.map Cell.cs ::
        [c9V].map (fun v =>
          [Cell.cs v.name, Cell.cn (some v.value), Cell.cn (some v.spent),
           Cell.cn (some (v.value - v.spent)), Cell.cs v.category,
           Cell.cs (v.code.getD []), Cell.cs (v.pin.getD []),
           Cell.cs ((v.expires_on.map DateV.raw).getD []),
           Cell.cs (statusStr (deriveStatus 0 v)), Cell.cs v.created_at]) :=
  export_rows_spec 0 [c9V] (by simp)
    (by intro v hv; rw [List.mem_singleton.mp hv]; decide)

/-- Counterexample for C9 as stated: on the empty voucher list the exported
sheet is a single header row holding the lone placeholder column sample,
which is not the fixed export column list. -/
theorem export_header_cex :
    exportData 0 [] = [[Cell.cs ("sample".toList)]]
    ∧ "sample".toList ∉ exportColumns
    ∧ exportData 0 [] ≠ [exportColumns.map Cell.cs] := by
  refine ⟨rfl, by decide, by decide⟩
